import Mathlib

/-
  Verification development for the NanoClaw orchestration kernel.

  Shallow embedding of the host-side router and the sandbox runners:
  - processGroupMessages and startMessageLoop (src/index.ts),
  - runOpenCodeAgent (src/opencode-runner.ts),
  - runVibeAgent / executeVibe mount construction (src/vibe-runner.ts, src/vibe-helper.ts),
  - runTartAgent cleanup (src/tart-runner.ts).

  Effectful steps (child processes, the store, channel sends) are modelled as
  explicit event traces; external outcomes (process exit, thrown exceptions,
  JSON parsing of agent output lines) are oracle parameters.  Functions whose
  source lives outside the provided tree (db.ts, config.ts, router.ts,
  mount-security.ts) are modelled from the specification and are marked as such
  in their doc comments.
-/

namespace NanoClaw

/-- Result status of an agent run, from the ContainerOutput interface. -/
inductive OutStatus
| success
| error
deriving DecidableEq, Repr

/-- ContainerOutput from container-runner.ts: the shape of both streamed frames
and the final output of every runner. -/
structure ContainerOutput where
  status : OutStatus
  result : Option String
  newSessionId : Option String := none
  error : Option String := none
deriving DecidableEq, Repr

/-- One additional mount request from a workspace configuration
(containerConfig.additionalMounts entries). -/
structure AdditionalMount where
  hostPath : String
  containerPath : String
  readonly : Option Bool := none
deriving DecidableEq, Repr

/-- The per-group container configuration fields used by the claims
(timeout override and additional mounts; cpus, ram, env and image names are
not read by any claim and are omitted). -/
structure ContainerConfig where
  timeout : Option Nat := none
  additionalMounts : List AdditionalMount := []
deriving DecidableEq, Repr

/-- RegisteredGroup from types.ts: a chat bound to a workspace.
requiresTrigger is an optional Bool; the source tests
group.requiresTrigger !== false, so an absent field counts as requiring. -/
structure RegisteredGroup where
  name : String
  folder : String
  trigger : String := ""
  requiresTrigger : Option Bool := none
  containerConfig : Option ContainerConfig := none
deriving DecidableEq, Repr

/-- A stored inbound message as returned by the store queries
(fields read by the router: chat, sender name, content, timestamp). -/
structure NewMessage where
  chat_jid : String
  sender_name : String
  content : String
  timestamp : String
deriving DecidableEq, Repr

/-- Modelled from the spec: escapeXml lives in router.ts which is not under
src/; spec section 6.1 and the identical inline helper in
buildPromptFromMessages (src/index.ts) give the four sequential replacements. -/
def escapeXml (s : String) : String :=
  String.mk (s.data.flatMap (fun c =>
    if c = '&' then "&amp;".data
    else if c = '<' then "&lt;".data
    else if c = '>' then "&gt;".data
    else if c = '"' then "&quot;".data
    else [c]))

/-- Modelled from the spec: formatMessages lives in router.ts which is not
under src/; spec section 6.1 gives the XML-ish envelope, matching
buildPromptFromMessages in src/index.ts. -/
def formatMessages (msgs : List NewMessage) : String :=
  "<messages>\n" ++
    String.intercalate "\n" (msgs.map (fun m =>
      "<message sender=\"" ++ escapeXml m.sender_name ++ "\" time=\"" ++
        m.timestamp ++ "\">" ++ escapeXml m.content ++ "</message>")) ++
  "\n</messages>"

/-- ASCII whitespace, the subset of the JavaScript trim character class that
the router texts can contain (full Unicode whitespace is not modelled). -/
def isWsChar (c : Char) : Bool := c = ' ' || c = '\t' || c = '\n' || c = '\r'

/-- List-level trim of leading and trailing whitespace. -/
def trimList (cs : List Char) : List Char :=
  ((cs.dropWhile isWsChar).reverse.dropWhile isWsChar).reverse

/-- String.prototype.trim on the modelled character class. -/
def trimS (s : String) : String := String.mk (trimList s.data)

/-- String.prototype.trimEnd on the modelled character class. -/
def trimEndS (s : String) : String :=
  String.mk (s.data.reverse.dropWhile isWsChar).reverse

/-- String.prototype.split on a newline, keeping empty segments. -/
def splitNL : List Char → List (List Char)
  | [] => [[]]
  | c :: tl =>
    let r := splitNL tl
    if c = '\n' then [] :: r
    else
      match r with
      | [] => [[c]]
      | h :: t => (c :: h) :: t

/-- Substring containment on character lists, String.prototype.includes. -/
def listContains (pat : List Char) : List Char → Bool
  | [] => pat.isEmpty
  | c :: tl => pat.isPrefixOf (c :: tl) || listContains pat tl

/-- String.prototype.includes. -/
def containsSub (s pat : String) : Bool := listContains pat.data s.data

/-- String.prototype.startsWith. -/
def startsWithS (s pat : String) : Bool := pat.data.isPrefixOf s.data

/-- The regex replace of one trailing carriage return, line.replace of
src/opencode-runner.ts line 38. -/
def dropCRList (cs : List Char) : List Char :=
  match cs.reverse with
  | c :: t => if c = '\r' then t.reverse else cs
  | [] => []

/-- Last n characters of a string, String.prototype.slice with a negative
start as used for log tails in error messages. -/
def takeLastS (n : Nat) (s : String) : String :=
  String.mk (s.data.drop (s.data.length - n))

/-- The characters of the opening internal-reasoning tag. -/
def tagOpen : List Char := ['<', 'i', 'n', 't', 'e', 'r', 'n', 'a', 'l', '>']

/-- The characters of the closing internal-reasoning tag. -/
def tagClose : List Char := ['<', '/', 'i', 'n', 't', 'e', 'r', 'n', 'a', 'l', '>']

/-- Scan for the first occurrence of the closing tag; return what follows it.
This is the lazy tail of the regex internal-block match in src/index.ts. -/
def dropAfterClose : List Char → Option (List Char)
  | [] => none
  | c :: tl =>
    if tagClose.isPrefixOf (c :: tl) then some ((c :: tl).drop tagClose.length)
    else dropAfterClose tl

theorem dropAfterClose_length :
    ∀ cs r, dropAfterClose cs = some r → r.length < cs.length := by
  intro cs
  induction cs with
  | nil => intro r h; simp [dropAfterClose] at h
  | cons c tl ih =>
    intro r h
    by_cases hp : tagClose.isPrefixOf (c :: tl)
    · simp only [dropAfterClose, hp, if_pos] at h
      cases h
      simp only [List.length_drop, List.length_cons]
      simp [tagClose]
      omega
    · simp only [dropAfterClose, hp, if_neg, Bool.false_eq_true] at h
      have := ih r h
      simp only [List.length_cons]
      omega

/-- Fuel-indexed scanner implementing the JavaScript global lazy replace of
internal blocks with the empty string, one position at a time: at a position
that starts with the opening tag and has a closing tag somewhere after it, the
whole lazy match is dropped and scanning resumes after it; otherwise the
character is kept.  The fuel only bounds recursion depth; with fuel at least
the list length it computes the replace of src/index.ts line 243. -/
def stripAuxF : Nat → List Char → List Char
  | 0, _ => []
  | _ + 1, [] => []
  | fuel + 1, c :: tl =>
    if tagOpen.isPrefixOf (c :: tl) then
      match dropAfterClose ((c :: tl).drop tagOpen.length) with
      | some rest => stripAuxF fuel rest
      | none => c :: stripAuxF fuel tl
    else c :: stripAuxF fuel tl

/-- The internal-block replace on character lists, with just enough fuel. -/
def stripL (cs : List Char) : List Char := stripAuxF cs.length cs

/-- The replace of internal blocks on strings, as applied to a frame result in
src/index.ts line 243 before trimming and sending. -/
def stripInternal (s : String) : String := String.mk (stripL s.data)

theorem stripAuxF_nil : ∀ f, stripAuxF f [] = [] := by
  intro f
  cases f <;> rfl

theorem stripAuxF_congr :
    ∀ f g cs, cs.length ≤ f → cs.length ≤ g → stripAuxF f cs = stripAuxF g cs := by
  intro f
  induction f with
  | zero =>
    intro g cs hf _
    have : cs = [] := List.length_eq_zero.mp (Nat.le_zero.mp hf)
    subst this
    rw [stripAuxF_nil, stripAuxF_nil]
  | succ f ih =>
    intro g cs hf hg
    cases cs with
    | nil => rw [stripAuxF_nil, stripAuxF_nil]
    | cons c tl =>
      cases g with
      | zero => simp at hg
      | succ g =>
        have hf' : tl.length ≤ f := by simp only [List.length_cons] at hf; omega
        have hg' : tl.length ≤ g := by simp only [List.length_cons] at hg; omega
        simp only [stripAuxF]
        by_cases hp : tagOpen.isPrefixOf (c :: tl)
        · simp only [hp, if_true]
          cases hd : dropAfterClose ((c :: tl).drop tagOpen.length) with
          | some rest =>
            have hlen := dropAfterClose_length _ _ hd
            simp only [List.length_drop, List.length_cons] at hlen
            exact ih g rest (by omega) (by omega)
          | none =>
            exact congrArg (c :: ·) (ih g tl hf' hg')
        · simp only [hp, if_false, Bool.false_eq_true]
          exact congrArg (c :: ·) (ih g tl hf' hg')

theorem stripAuxF_fuel :
    ∀ f cs, cs.length ≤ f → stripAuxF f cs = stripL cs := by
  intro f cs h
  exact stripAuxF_congr f cs.length cs h (le_refl _)

/-- Observable effects of one processGroupMessages run, in program order.
saveState carries the value of lastAgentTimestamp for the processed chat at
the moment of the call (the only piece of persisted router state the claims
read); setTyping, snapshot writes and the idle timer are not modelled. -/
inductive Event
| saveState (lastAgentTs : String)
| setSession (folder : String) (sid : String)
| sendMessage (chatJid : String) (text : String)
| runAgentStart (chatJid : String) (prompt : String) (sessionId : Option String)
deriving DecidableEq, Repr

/-- The streaming output callback of processGroupMessages
(src/index.ts lines 233 to 258) for one result frame: record a new session id
first, then strip internal blocks from the result, trim, and when non-empty
send it and persist state.  cursorNow is the advanced cursor in force during
the run, which is what the in-callback saveState persists.
A frame whose result is the empty string is falsy in the source and sends
nothing. -/
def processFrame (folder chatJid : String) (cursorNow : String)
    (r : ContainerOutput) : List Event :=
  (match r.newSessionId with
    | some sid => [Event.setSession folder sid]
    | none => []) ++
  (match r.result with
    | some raw =>
      if raw = "" then []
      else
        let text := trimS (stripInternal raw)
        if text = "" then []
        else [Event.sendMessage chatJid text, Event.saveState cursorNow]
    | none => [])

/-- How a runAgent call can end, as seen by processGroupMessages: it either
returns a final ContainerOutput after streaming some frames, or it throws
(spawn failures and other rejections), possibly after streaming some frames. -/
inductive RunOutcome
| ok (frames : List ContainerOutput) (output : ContainerOutput)
| thrown (frames : List ContainerOutput)
deriving DecidableEq, Repr

/-- The frames streamed to the callback during the run. -/
def RunOutcome.framesOf : RunOutcome → List ContainerOutput
  | .ok frames _ => frames
  | .thrown frames => frames

/-- The hadError flag of processGroupMessages at the end of the run: set by a
streamed frame with status error, by a final output with status error (the
runner reports exit code not zero, spawn errors and timeouts this way), or by
a thrown exception. -/
def RunOutcome.hadError : RunOutcome → Bool
  | .ok frames output =>
    frames.any (fun f => f.status == OutStatus.error) ||
      (output.status == OutStatus.error)
  | .thrown _ => true

/-- Timestamp of the last message of the batch (empty for an empty batch). -/
def lastTs (missed : List NewMessage) : String :=
  (missed.getLast?).elim "" (fun m => m.timestamp)

/-- The trigger gate of processGroupMessages (src/index.ts lines 159 to 164):
skip when the group is not the main group, the global REQUIRE_TRIGGER config
is on, the group does not opt out (requiresTrigger strictly distinct from
false), and no pending message content matches the trigger pattern after
trimming.  test abstracts TRIGGER_PATTERN.test of the config regex. -/
def triggerSkip (test : String → Bool) (requireTrigger : Bool)
    (mainFolder : String) (g : RegisteredGroup)
    (missed : List NewMessage) : Bool :=
  !(g.folder == mainFolder) && requireTrigger &&
    !(g.requiresTrigger == some false) &&
    !(missed.any (fun m => test (trimS m.content)))

/-- Result of one processGroupMessages call: the final value of
lastAgentTimestamp for the chat (empty string when unset, as in the source
where a missing key reads as the empty string), the emitted effect trace, and
the boolean return value. -/
structure ProcResult where
  cursor : String
  events : List Event
  returnValue : Bool
deriving DecidableEq, Repr

/-- Shallow embedding of processGroupMessages (src/index.ts lines 142 to 286)
for one registered group g of chat chatJid: missed is the batch returned by
getMessagesSince at the current cursor cursor0, sessionId the stored session
of the group folder, and outcome how the runAgent call ends.  The source
advances the cursor to the last batch timestamp and persists it before
spawning the agent, processes streamed frames through the callback, records a
final session id, and on hadError rolls the cursor back to previousCursor and
persists again, returning false. -/
def processGroupMessages (test : String → Bool) (requireTrigger : Bool)
    (mainFolder : String) (chatJid : String) (g : RegisteredGroup)
    (missed : List NewMessage) (cursor0 : String) (sessionId : Option String)
    (outcome : RunOutcome) : ProcResult :=
  if missed.isEmpty then ⟨cursor0, [], true⟩
  else if triggerSkip test requireTrigger mainFolder g missed then
    ⟨cursor0, [], true⟩
  else
    let previousCursor := cursor0
    let newCursor := lastTs missed
    let startEvents :=
      [Event.saveState newCursor,
       Event.runAgentStart chatJid (formatMessages missed) sessionId]
    let frameEvents :=
      outcome.framesOf.flatMap (processFrame g.folder chatJid newCursor)
    let outputEvents :=
      match outcome with
      | .ok _ output =>
        match output.newSessionId with
        | some sid => [Event.setSession g.folder sid]
        | none => []
      | .thrown _ => []
    if outcome.hadError then
      ⟨previousCursor,
       startEvents ++ frameEvents ++ outputEvents ++
         [Event.saveState previousCursor],
       false⟩
    else
      ⟨newCursor, startEvents ++ frameEvents ++ outputEvents, true⟩

/-- Lexicographic strictly-less on character lists: the byte order the
embedded store uses to compare TEXT timestamps. -/
def ltChars : List Char → List Char → Bool
  | [], [] => false
  | [], _ :: _ => true
  | _ :: _, [] => false
  | a :: as, b :: bs =>
    if a < b then true else if b < a then false else ltChars as bs

/-- Strictly-less on strings through their characters. -/
def ltS (s t : String) : Bool := ltChars s.data t.data

/-- The larger of two strings in the store order. -/
def maxS (s t : String) : String := if ltS s t then t else s

/-- Modelled from the spec: getNewMessages lives in db.ts which is not under
src/; spec section 4.1 specifies it returns the stored messages strictly after
sinceTs whose chat is registered and whose sender is not the assistant, and as
second component the maximum batch timestamp, or sinceTs when the batch is
empty.  The store is abstracted as the list of all stored messages. -/
def getNewMessages (store : List NewMessage) (jids : List String)
    (since selfName : String) : List NewMessage × String :=
  let msgs := store.filter (fun m =>
    jids.contains m.chat_jid && ltS since m.timestamp &&
      m.sender_name != selfName)
  (msgs, msgs.foldl (fun acc m => maxS acc m.timestamp) since)

/-- Modelled from the spec: getMessagesSince lives in db.ts which is not under
src/; spec section 4.1 specifies the same filter for a single chat. -/
def getMessagesSince (store : List NewMessage) (chatJid : String)
    (since selfName : String) : List NewMessage :=
  store.filter (fun m =>
    m.chat_jid == chatJid && ltS since m.timestamp &&
      m.sender_name != selfName)

/-- Observable steps of one iteration of the startMessageLoop while body,
in program order.  advanceSeen is the assignment to lastTimestamp, save the
saveState persist, check the start of per-group handling for a chat, pipe a
successful queue.sendMessage into a live agent, advanceCursor the
lastAgentTimestamp update on the piping path, and enqueue the fallback
queue.enqueueMessageCheck. -/
inductive TickEvent
| advanceSeen (ts : String)
| save
| check (chatJid : String)
| pipe (chatJid : String) (formatted : String)
| advanceCursor (chatJid : String) (ts : String)
| enqueue (chatJid : String)
deriving DecidableEq, Repr

/-- Chat jids of a batch in order of first occurrence, as produced by the
messagesByGroup map of src/index.ts lines 431 to 439. -/
def groupJids (msgs : List NewMessage) : List String :=
  msgs.foldl (fun acc m =>
    if acc.contains m.chat_jid then acc else acc ++ [m.chat_jid]) []

/-- Per-group handling of one tick (src/index.ts lines 441 to 483) for chat
jid: look the group up, apply the trigger gate to the new batch for that chat,
pull the full catch-up window since the agent cursor, and either pipe into a
live agent (advancing and persisting the cursor) or enqueue a check.
pipeOk abstracts queue.sendMessage, cursorOf the lastAgentTimestamp map. -/
def tickGroupStep (store : List NewMessage)
    (groups : List (String × RegisteredGroup)) (test : String → Bool)
    (requireTrigger : Bool) (mainFolder selfName : String)
    (cursorOf : String → String) (pipeOk : String → Bool)
    (msgs : List NewMessage) (jid : String) : List TickEvent :=
  match (groups.find? (fun p => p.1 == jid)).map (fun p => p.2) with
  | none => []
  | some g =>
    let groupMessages := msgs.filter (fun m => m.chat_jid == jid)
    let needsTrigger := !(g.folder == mainFolder) && requireTrigger &&
      !(g.requiresTrigger == some false)
    TickEvent.check jid ::
      (if needsTrigger &&
          !(groupMessages.any (fun m => test (trimS m.content))) then []
       else
        let allPending := getMessagesSince store jid (cursorOf jid) selfName
        let toSend := if allPending.isEmpty then groupMessages else allPending
        if pipeOk jid then
          [TickEvent.pipe jid (formatMessages toSend),
           TickEvent.advanceCursor jid (lastTs toSend),
           TickEvent.save]
        else [TickEvent.enqueue jid])

/-- Shallow embedding of one iteration of the startMessageLoop while body
(src/index.ts lines 414 to 490): fetch the new batch, and when non-empty first
advance the seen watermark lastTimestamp to the batch maximum and persist,
then handle each group of the batch.  laterFails models an exception thrown by
any later step of the tick, caught by the surrounding try so that the already
assigned watermark survives.  Returns the final lastTimestamp and the step
trace. -/
def messageLoopTick (store : List NewMessage)
    (groups : List (String × RegisteredGroup)) (test : String → Bool)
    (requireTrigger : Bool) (mainFolder selfName lastTimestamp : String)
    (cursorOf : String → String) (pipeOk : String → Bool)
    (laterFails : Bool) : String × List TickEvent :=
  let fetched := getNewMessages store (groups.map (fun p => p.1))
    lastTimestamp selfName
  if fetched.1.isEmpty then (lastTimestamp, [])
  else
    let rest :=
      if laterFails then []
      else (groupJids fetched.1).flatMap
        (tickGroupStep store groups test requireTrigger mainFolder selfName
          cursorOf pipeOk fetched.1)
    (fetched.2, TickEvent.advanceSeen fetched.2 :: TickEvent.save :: rest)

/-- One item of an assistant-message content array as read by
extractOpenCodeResponse: its type tag and its text. -/
structure OCItem where
  jtype : String
  text : String
deriving DecidableEq, Repr

/-- The content field of a parsed output line: a string or an array. -/
inductive OCContent
| str (s : String)
| arr (items : List OCItem)
deriving DecidableEq, Repr

/-- The fields of a JSON stdout line that extractOpenCodeResponse reads
(src/opencode-runner.ts lines 49 to 76).  JSON.parse itself is external; the
parse oracle of the extractor maps a raw line to these fields or to none when
the line is not JSON. -/
structure OCLine where
  jtype : Option String := none
  text : Option String := none
  partText : Option String := none
  role : Option String := none
  content : Option OCContent := none
deriving DecidableEq, Repr

/-- JavaScript truthiness for an optional string field: present and
non-empty. -/
def truthyS : Option String → Option String
  | some s => if s = "" then none else some s
  | none => none

/-- One parsed line folded into the accumulated result, following the two
type tests of src/opencode-runner.ts lines 52 to 76: a text chunk appends its
text (or its part text), and an assistant message replaces the result with its
string content or with the joined text parts of its array content. -/
def ocLineStep (j : OCLine) (result : String) : String :=
  let r1 :=
    if j.jtype == some "text" then
      match truthyS j.text with
      | some t => result ++ t
      | none =>
        match truthyS j.partText with
        | some t => result ++ t
        | none => result
    else result
  if j.jtype == some "message" && j.role == some "assistant" then
    match j.content with
    | some (OCContent.str s) => if s = "" then r1 else s
    | some (OCContent.arr items) =>
      let textParts := (items.filter (fun c => c.jtype == "text")).map
        (fun c => c.text)
      if textParts.isEmpty then r1 else String.intercalate "\n" textParts
    | none => r1
  else r1

/-- The fallback scan of src/opencode-runner.ts lines 87 to 93 over the lines
in reverse order: the last non-empty trimmed line that is not a known
metadata line. -/
def ocFallback : List String → String
  | [] => ""
  | l :: rest =>
    let t := trimS l
    if t = "" then ocFallback rest
    else if containsSub t "tokens used" || containsSub t "session:" ||
        startsWithS t "http://" then ocFallback rest
    else t

/-- extractOpenCodeResponse (src/opencode-runner.ts lines 35 to 96) over a
parse oracle standing for JSON.parse per line: split stdout on newlines,
normalize line ends, fold the JSON lines into a result, and fall back to the
last plausible plain line when no JSON produced text. -/
def extractOpenCodeResponse (parse : String → Option OCLine)
    (rawStdout : String) : String :=
  let lines := (splitNL rawStdout.data).map
    (fun l => trimEndS (String.mk (dropCRList l)))
  let result := lines.foldl (fun acc line =>
    if trimS line = "" then acc
    else
      match parse line with
      | none => acc
      | some j => ocLineStep j acc) ""
  if result ≠ "" then result
  else ocFallback lines.reverse

/-- Modelled from the spec: config.ts is not under src/; the documented
default CONTAINER_TIMEOUT is 300000 ms, the five-minute default of spec
section 4.5. -/
def CONTAINER_TIMEOUT : Nat := 300000

/-- The optional opts argument of runOpenCodeAgent. -/
structure OpenCodeOpts where
  timeoutMs : Option Nat := none
deriving DecidableEq, Repr

/-- The timeout resolution of src/opencode-runner.ts line 105:
opts timeout, else the per-group containerConfig timeout, else the global
default. -/
def resolveTimeoutMs (g : RegisteredGroup) (opts : Option OpenCodeOpts) : Nat :=
  ((opts.bind (fun o => o.timeoutMs)).getD
    ((g.containerConfig.bind (fun c => c.timeout)).getD CONTAINER_TIMEOUT))

/-- Signals the runner can send its child process. -/
inductive Signal
| sigterm
| sigkill
deriving DecidableEq, Repr

/-- How the spawned opencode process run terminates, from the three
resolution sites of the promise in src/opencode-runner.ts: the wall-clock
timer fires first, the spawn fails, or the close event fires with an exit
code (null when the runner itself killed the process). -/
inductive ProcTermination
| timeoutFired
| spawnError (msg : String)
| closed (code : Option Int)
deriving DecidableEq, Repr

/-- Shallow embedding of the resolution of runOpenCodeAgent
(src/opencode-runner.ts lines 98 to 255): the final ContainerOutput plus the
list of signals sent to the child on the taken path.  stdout and stderr are
the captured (possibly truncated) streams at termination time and
capturedSessionId the session id seen by the streaming handler.  On timeout
the child is killed with SIGKILL and the promise resolves to an error that
reports the timeout; on close, a non-zero non-null code is an error, an empty
extraction is an error, and otherwise the run succeeds carrying the extracted
text. -/
def runOpenCodeAgent (parse : String → Option OCLine) (g : RegisteredGroup)
    (opts : Option OpenCodeOpts) (term : ProcTermination)
    (stdout stderr : String) (capturedSessionId : Option String) :
    ContainerOutput × List Signal :=
  let timeoutMs := resolveTimeoutMs g opts
  match term with
  | ProcTermination.timeoutFired =>
    (⟨OutStatus.error, none, none,
      some ("OpenCode timed out after " ++ toString timeoutMs ++ "ms")⟩,
     [Signal.sigkill])
  | ProcTermination.spawnError msg =>
    (⟨OutStatus.error, none, none,
      some ("Failed to spawn opencode: " ++ msg)⟩, [])
  | ProcTermination.closed code =>
    if code ≠ some 0 ∧ code ≠ none then
      (⟨OutStatus.error, none, none,
        some ("OpenCode exited with code " ++
          (code.elim "null" toString) ++ ". Stdout: " ++
          takeLastS 500 (trimS stdout) ++ ". Stderr: " ++
          takeLastS 500 (trimS stderr))⟩, [])
    else
      let text := extractOpenCodeResponse parse stdout
      if text = "" then
        (⟨OutStatus.error, none, none,
          some ("OpenCode returned empty output. Stderr: " ++
            takeLastS 500 (trimS stderr))⟩, [])
      else
        (⟨OutStatus.success, some text, capturedSessionId, none⟩, [])

/-- One mount handed to the vibe command: host path, guest path, and the
read-only flag. -/
structure Mount where
  hostPath : String
  guestPath : String
  readonly : Bool
deriving DecidableEq, Repr

/-- The mount list constructed by runVibeAgent (src/vibe-runner.ts lines 134
to 165): the group directory and IPC directory read-write, the session
directory read-write when it exists, then every additionalMounts entry of the
group containerConfig verbatim, with readonly defaulting to false (the source
reads mount.readonly or false).  No validation of any kind is applied to the
additional mounts. -/
def buildVibeMounts (g : RegisteredGroup)
    (groupDir ipcDir sessionsDir : String)
    (sessionDirExists : Bool) : List Mount :=
  [⟨groupDir, "/workspace", false⟩, ⟨ipcDir, "/ipc", false⟩] ++
  (if sessionDirExists then [⟨sessionsDir, "/home/user/.claude", false⟩]
   else []) ++
  ((g.containerConfig.map (fun c => c.additionalMounts)).getD []).map
    (fun m => ⟨m.hostPath, m.containerPath, m.readonly.getD false⟩)

/-- The mount arguments built by executeVibe (src/vibe-helper.ts lines 48 to
53): each mount becomes a pair of arguments, with a read-only or read-write
suffix chosen by the readonly flag alone. -/
def vibeMountArgs (mounts : List Mount) : List String :=
  mounts.flatMap (fun m =>
    ["--mount",
     m.hostPath ++ ":" ++ m.guestPath ++
       (if m.readonly then ":read-only" else ":read-write")])

/-- Modelled from the spec: mount-security.ts is not under src/; spec section
4.2 gives the mount-policy schema, with allowed roots carrying an
allowReadWrite flag, blocked patterns, and the nonMainReadOnly switch. -/
structure MountPolicy where
  allowedRoots : List (String × Bool)
  blockedPatterns : List String
  nonMainReadOnly : Bool
deriving DecidableEq, Repr

/-- Path components of a host path, for the blocked-pattern check. -/
def pathComponents (p : String) : List String :=
  (splitNL (p.data.map (fun c => if c = '/' then '\n' else c))).map String.mk

/-- Modelled from the spec: a path matches the blocklist when some component
equals some blocked pattern (glob patterns beyond literal names are not
modelled; the documented default blocklist is made of literal names). -/
def matchesBlocked (policy : MountPolicy) (p : String) : Bool :=
  policy.blockedPatterns.any (fun pat => (pathComponents p).contains pat)

/-- Modelled from the spec: a path is under the allowlist when some allowed
root is a prefix of it. -/
def underAllowedRoot (policy : MountPolicy) (p : String) : Bool :=
  policy.allowedRoots.any (fun r => startsWithS p r.1)

/-- The property claimed for every additional mount accepted into a run: the
host path is under an allowed root, matches no blocked pattern, and a
non-privileged workspace under a read-only policy gets a read-only guest
mount. -/
def mountPolicyClaim (policy : MountPolicy) (isMain : Bool) (m : Mount) : Prop :=
  underAllowedRoot policy m.hostPath = true ∧
  matchesBlocked policy m.hostPath = false ∧
  (isMain = false ∧ policy.nonMainReadOnly = true → m.readonly = true)

instance (policy : MountPolicy) (isMain : Bool) (m : Mount) :
    Decidable (mountPolicyClaim policy isMain m) := by
  unfold mountPolicyClaim
  infer_instance

/-- The tart commands whose issuing order the cleanup claim is about. -/
inductive TartCmd
| clone (base vm : String)
| run (vm dir : String)
| stop (vm : String)
| delete (vm : String)
deriving DecidableEq, Repr

/-- Outcomes of the external steps of one runTartAgent invocation: each field
tells whether the corresponding subprocess or SSH step succeeds, and carries
its produced value where one is read.  agentResult none covers both a thrown
SSH failure and the thrown non-zero agent exit. -/
structure TartEnv where
  listOk : Bool
  baseImageListed : Bool
  cloneOk : Bool
  runOk : Bool
  ip : Option String
  sshOk : Bool
  symlinkOk : Bool
  configsOk : Bool
  envOk : Bool
  dirsOk : Bool
  agentResult : Option (String × Option String)
  stopOk : Bool
  deleteOk : Bool
deriving DecidableEq, Repr

/-- An error output with a message, as produced by the catch block of
runTartAgent (the exact host error text is environment determined; the
structure is what the claims read). -/
def tartErr (msg : String) : ContainerOutput :=
  ⟨OutStatus.error, none, none, some msg⟩

/-- The try block of runTartAgent (src/tart-runner.ts lines 214 to 289) over
the step oracle: the chain of steps up to the agent execution, returning the
output the catch converts a failure into, together with the tart commands
issued so far. -/
def tartBody (env : TartEnv) (base vm dir : String) :
    ContainerOutput × List TartCmd :=
  if !env.listOk then (tartErr "tart list failed", [])
  else if !env.baseImageListed then
    (tartErr ("Tart base image " ++ base ++
      " not found. Run scripts/prepare-tart-base.sh first."), [])
  else if !env.cloneOk then (tartErr "tart clone failed", [TartCmd.clone base vm])
  else if !env.runOk then
    (tartErr "tart run failed", [TartCmd.clone base vm, TartCmd.run vm dir])
  else
    let tr := [TartCmd.clone base vm, TartCmd.run vm dir]
    match env.ip with
    | none => (tartErr "timed out waiting for VM IP", tr)
    | some _ =>
      if !env.sshOk then (tartErr "timed out waiting for SSH", tr)
      else if !env.symlinkOk then (tartErr "ssh symlink failed", tr)
      else if !env.configsOk then (tartErr "config upload failed", tr)
      else if !env.envOk then (tartErr "env export failed", tr)
      else if !env.dirsOk then (tartErr "directory setup failed", tr)
      else
        match env.agentResult with
        | none => (tartErr "agent execution failed", tr)
        | some (stdout, sessionId) =>
          (⟨OutStatus.success, some stdout, sessionId, none⟩, tr)

/-- Shallow embedding of runTartAgent (src/tart-runner.ts lines 202 to 303):
the VM name is built from the group folder and the spawn timestamp, the try
block runs, and the finally block always issues tart stop for the clone and,
when the stop does not throw, tart delete; a failing cleanup is swallowed.
Returns the output and the full issued-command trace. -/
def runTartAgent (env : TartEnv) (g : RegisteredGroup) (base dir : String)
    (spawnTime : Nat) : ContainerOutput × List TartCmd :=
  let vm := "nanoclaw-" ++ g.folder ++ "-" ++ toString spawnTime
  let body := tartBody env base vm dir
  (body.1,
   body.2 ++ TartCmd.stop vm ::
     (if env.stopOk then [TartCmd.delete vm] else []))

/-- Recognizer for channel send events, used to state which texts a frame
surfaces. -/
def isSendEvent : Event → Bool
  | Event.sendMessage _ _ => true
  | _ => false

theorem isEmpty_false_of_ne_nil {α : Type} {l : List α} (h : l ≠ []) :
    l.isEmpty = false := by
  cases l with
  | nil => exact absurd rfl h
  | cons a t => rfl

/-- C1: in every run executed by processGroupMessages, a terminal error
(non-zero exit, spawn error or timeout surface as an error-status output of
the runner, a streamed error frame, or a thrown exception) rolls
lastAgentTimestamp for the chat back to the pre-run cursor and persists it as
the last saveState of the run, so the same pending batch is re-fetched on the
next tick; a run without error keeps the advanced cursor, the last batch
timestamp. -/
theorem claim_c1_error_rollback (test : String → Bool) (requireTrigger : Bool)
    (mainFolder chatJid : String) (g : RegisteredGroup)
    (missed : List NewMessage) (cursor0 : String) (sessionId : Option String)
    (outcome : RunOutcome)
    (hne : missed ≠ [])
    (hgate : triggerSkip test requireTrigger mainFolder g missed = false) :
    (outcome.hadError = true →
      (processGroupMessages test requireTrigger mainFolder chatJid g missed
        cursor0 sessionId outcome).cursor = cursor0 ∧
      (∃ pre, (processGroupMessages test requireTrigger mainFolder chatJid g
        missed cursor0 sessionId outcome).events =
          pre ++ [Event.saveState cursor0]) ∧
      (processGroupMessages test requireTrigger mainFolder chatJid g missed
        cursor0 sessionId outcome).returnValue = false) ∧
    (outcome.hadError = false →
      (processGroupMessages test requireTrigger mainFolder chatJid g missed
        cursor0 sessionId outcome).cursor = lastTs missed ∧
      (processGroupMessages test requireTrigger mainFolder chatJid g missed
        cursor0 sessionId outcome).returnValue = true) := by
  have hempty := isEmpty_false_of_ne_nil hne
  constructor
  · intro herr
    simp only [processGroupMessages, hempty, hgate, herr, Bool.false_eq_true,
      if_false, if_true]
    exact ⟨trivial, ⟨_, rfl⟩, trivial⟩
  · intro herr
    simp only [processGroupMessages, hempty, hgate, herr, Bool.false_eq_true,
      if_false]
    exact ⟨trivial, trivial⟩

/-- Closed instance of the C1 theorem: a one-message batch for a triggered
group whose run returns an error-status output rolls the cursor back to the
pre-run value c0 and ends by persisting it. -/
theorem claim_c1_witness :
    (RunOutcome.ok [] ⟨OutStatus.error, none, none, some "boom"⟩).hadError
        = true ∧
    (processGroupMessages (fun _ => true) true "main" "chat1"
      ⟨"Friends", "friends", "@A", none, none⟩
      [⟨"chat1", "alice", "@A hi", "t7"⟩] "t6" none
      (RunOutcome.ok [] ⟨OutStatus.error, none, none, some "boom"⟩)).cursor
        = "t6" := by
  refine ⟨rfl, ?_⟩
  have h := (claim_c1_error_rollback (fun _ => true) true "main" "chat1"
    ⟨"Friends", "friends", "@A", none, none⟩
    [⟨"chat1", "alice", "@A hi", "t7"⟩] "t6" none
    (RunOutcome.ok [] ⟨OutStatus.error, none, none, some "boom"⟩)
    (by decide) (by decide)).1 rfl
  exact h.1

/-- C5: in every run of processGroupMessages that reaches the agent, the
first two effects are, in order, a saveState that persists
lastAgentTimestamp advanced to the last pending message timestamp, and then
the runAgent invocation with the formatted batch; so the cursor is advanced
and persisted before the agent starts and the piping path of the message
loop cannot re-fetch the same content while the run is in flight. -/
theorem claim_c5_cursor_before_run (test : String → Bool)
    (requireTrigger : Bool) (mainFolder chatJid : String)
    (g : RegisteredGroup) (missed : List NewMessage) (cursor0 : String)
    (sessionId : Option String) (outcome : RunOutcome)
    (hne : missed ≠ [])
    (hgate : triggerSkip test requireTrigger mainFolder g missed = false) :
    ∃ rest,
      (processGroupMessages test requireTrigger mainFolder chatJid g missed
        cursor0 sessionId outcome).events =
      Event.saveState (lastTs missed) ::
        Event.runAgentStart chatJid (formatMessages missed) sessionId ::
          rest := by
  have hempty := isEmpty_false_of_ne_nil hne
  simp only [processGroupMessages, hempty, hgate, Bool.false_eq_true, if_false]
  by_cases herr : outcome.hadError
  · simp only [herr, if_true]
    exact ⟨_, rfl⟩
  · simp only [herr, if_false]
    exact ⟨_, rfl⟩

/-- Closed instance of the C5 theorem at a concrete one-message batch and a
successful run. -/
theorem claim_c5_witness :
    ∃ rest,
      (processGroupMessages (fun _ => true) true "main" "chat1"
        ⟨"Friends", "friends", "@A", none, none⟩
        [⟨"chat1", "alice", "@A hi", "t7"⟩] "t6" none
        (RunOutcome.ok [] ⟨OutStatus.success, some "ok", none, none⟩)).events =
      Event.saveState (lastTs [⟨"chat1", "alice", "@A hi", "t7"⟩]) ::
        Event.runAgentStart "chat1"
          (formatMessages [⟨"chat1", "alice", "@A hi", "t7"⟩]) none :: rest :=
  claim_c5_cursor_before_run (fun _ => true) true "main" "chat1"
    ⟨"Friends", "friends", "@A", none, none⟩
    [⟨"chat1", "alice", "@A hi", "t7"⟩] "t6" none
    (RunOutcome.ok [] ⟨OutStatus.success, some "ok", none, none⟩)
    (by decide) (by decide)

/-- C4: for a non-main group, with the trigger requirement on globally and
not opted out by the group, a pending batch leads to an agent invocation only
if some pending message content matches the trigger after trimming; when no
message matches, processGroupMessages emits no effect at all and leaves the
cursor where it was, so the same messages are still in the catch-up window of
the next triggered run. -/
theorem claim_c4_trigger_gate (test : String → Bool) (mainFolder : String)
    (chatJid : String) (g : RegisteredGroup) (missed : List NewMessage)
    (cursor0 : String) (sessionId : Option String) (outcome : RunOutcome)
    (hmain : (g.folder == mainFolder) = false)
    (hopt : (g.requiresTrigger == some false) = false) :
    ((∃ p s, Event.runAgentStart chatJid p s ∈
        (processGroupMessages test true mainFolder chatJid g missed cursor0
          sessionId outcome).events) →
      missed.any (fun m => test (trimS m.content)) = true) ∧
    (missed.any (fun m => test (trimS m.content)) = false →
      processGroupMessages test true mainFolder chatJid g missed cursor0
        sessionId outcome = ⟨cursor0, [], true⟩) := by
  have hskip : missed.any (fun m => test (trimS m.content)) = false →
      processGroupMessages test true mainFolder chatJid g missed cursor0
        sessionId outcome = ⟨cursor0, [], true⟩ := by
    intro hnone
    have hgate : triggerSkip test true mainFolder g missed = true := by
      simp [triggerSkip, hmain, hopt, hnone]
    cases hm : missed.isEmpty with
    | true => simp [processGroupMessages, hm]
    | false => simp [processGroupMessages, hm, hgate]
  constructor
  · intro hrun
    by_contra hnone
    have hnone' : missed.any (fun m => test (trimS m.content)) = false := by
      cases h : missed.any (fun m => test (trimS m.content)) with
      | true => exact absurd h hnone
      | false => rfl
    obtain ⟨p, s, hmem⟩ := hrun
    rw [hskip hnone'] at hmem
    simp at hmem
  · exact hskip

/-- Closed instance of the C4 theorem: a batch without any trigger match for
a non-main triggered group is skipped without effects and without moving the
cursor. -/
theorem claim_c4_witness :
    ([⟨"chat1", "alice", "hello", "t3"⟩] :
        List NewMessage).any (fun m => ((trimS m.content) == "@A") ) = false ∧
    processGroupMessages (fun s => s == "@A") true "main" "chat1"
      ⟨"Friends", "friends", "@A", none, none⟩
      [⟨"chat1", "alice", "hello", "t3"⟩] "t2" none
      (RunOutcome.ok [] ⟨OutStatus.success, some "ok", none, none⟩) =
      ⟨"t2", [], true⟩ := by
  refine ⟨by decide, ?_⟩
  exact (claim_c4_trigger_gate (fun s => s == "@A") "main" "chat1"
    ⟨"Friends", "friends", "@A", none, none⟩
    [⟨"chat1", "alice", "hello", "t3"⟩] "t2" none
    (RunOutcome.ok [] ⟨OutStatus.success, some "ok", none, none⟩)
    (by decide) (by decide)).2 (by decide)

/-- C3: in the streaming callback, a frame that carries a newSessionId has
its setSession persisted as the first effect of the frame, before any
sendMessage of that same frame: the reply text of the frame can only be sent
after the session is recorded. -/
theorem claim_c3_session_before_send (folder chatJid cursorNow : String)
    (r : ContainerOutput) (sid : String) (h : r.newSessionId = some sid) :
    ∃ rest,
      processFrame folder chatJid cursorNow r =
        Event.setSession folder sid :: rest ∧
      ∀ t, Event.sendMessage chatJid t ∈
          processFrame folder chatJid cursorNow r →
        Event.sendMessage chatJid t ∈ rest := by
  refine ⟨(match r.result with
    | some raw =>
      if raw = "" then []
      else
        let text := trimS (stripInternal raw)
        if text = "" then []
        else [Event.sendMessage chatJid text, Event.saveState cursorNow]
    | none => []), ?_, ?_⟩
  · simp [processFrame, h]
  · intro t hmem
    simp only [processFrame, h] at hmem
    simp only [List.singleton_append, List.mem_cons] at hmem
    rcases hmem with h1 | h2
    · exact absurd h1 (by simp)
    · exact h2

/-- Closed instance of the C3 theorem at a frame carrying both a session id
and a reply text. -/
theorem claim_c3_witness :
    ∃ rest,
      processFrame "friends" "chat1" "t7"
          ⟨OutStatus.success, some "hi", some "S1", none⟩ =
        Event.setSession "friends" "S1" :: rest ∧
      ∀ t, Event.sendMessage "chat1" t ∈
          processFrame "friends" "chat1" "t7"
            ⟨OutStatus.success, some "hi", some "S1", none⟩ →
        Event.sendMessage "chat1" t ∈ rest :=
  claim_c3_session_before_send "friends" "chat1" "t7"
    ⟨OutStatus.success, some "hi", some "S1", none⟩ "S1" rfl

theorem ltChars_irrefl : ∀ as, ltChars as as = false := by
  intro as
  induction as with
  | nil => rfl
  | cons a tl ih => simp [ltChars, lt_irrefl, ih]

theorem ltChars_asymm :
    ∀ as bs, ltChars as bs = true → ltChars bs as = false := by
  intro as
  induction as with
  | nil =>
    intro bs h
    cases bs with
    | nil => rfl
    | cons b bt => rfl
  | cons a at' ih =>
    intro bs h
    cases bs with
    | nil => simp [ltChars] at h
    | cons b bt =>
      simp only [ltChars] at h ⊢
      by_cases hab : a < b
      · have hba : ¬ b < a := lt_asymm hab
        simp [hab, hba]
      · by_cases hba : b < a
        · simp [hab, hba] at h
        · simp only [hab, hba, if_false] at h
          simp [hab, hba, ih bt h]

theorem ltChars_trans_neg :
    ∀ as bs cs, ltChars as bs = false → ltChars bs cs = false →
      ltChars as cs = false := by
  intro as
  induction as with
  | nil =>
    intro bs cs h1 h2
    cases bs with
    | nil =>
      cases cs with
      | nil => rfl
      | cons c ct => exact h2
    | cons b bt => simp [ltChars] at h1
  | cons a at' ih =>
    intro bs cs h1 h2
    cases bs with
    | nil =>
      cases cs with
      | nil => rfl
      | cons c ct => simp [ltChars] at h2
    | cons b bt =>
      cases cs with
      | nil => rfl
      | cons c ct =>
        simp only [ltChars] at h1 h2 ⊢
        by_cases hab : a < b
        · simp [hab] at h1
        · by_cases hbc : b < c
          · simp [hbc] at h2
          · have hac : ¬ a < c := by
              intro hlt
              exact hab (lt_of_lt_of_le hlt (not_lt.mp hbc))
            by_cases hca : c < a
            · simp [hac, hca]
            · have hba : ¬ b < a := by
                intro hlt
                exact hca (lt_of_le_of_lt (not_lt.mp hbc) hlt)
              have hcb : ¬ c < b := by
                intro hlt
                exact hca (lt_of_lt_of_le hlt (not_lt.mp hab))
              simp only [hab, hba, if_false] at h1
              simp only [hbc, hcb, if_false] at h2
              simp [hac, hca, ih bt ct h1 h2]

theorem ltS_maxS_left (a b : String) : ltS (maxS a b) a = false := by
  by_cases h : ltS a b
  · simp only [maxS, h, if_true]
    exact ltChars_asymm a.data b.data h
  · have h' : ltS a b = false := by
      cases hh : ltS a b with
      | true => exact absurd hh h
      | false => rfl
    simp only [maxS, h', Bool.false_eq_true, if_false]
    exact ltChars_irrefl a.data

theorem ltS_foldl_maxS :
    ∀ (l : List NewMessage) (a : String),
      ltS (l.foldl (fun acc m => maxS acc m.timestamp) a) a = false := by
  intro l
  induction l with
  | nil => intro a; exact ltChars_irrefl a.data
  | cons m tl ih =>
    intro a
    exact ltChars_trans_neg _ _ _ (ih (maxS a m.timestamp))
      (ltS_maxS_left a m.timestamp)

/-- C6: in every message-loop tick with a non-empty batch, the first two
steps are the assignment of the store-wide seen watermark lastTimestamp to
the batch maximum and its persist, before any per-group trigger check,
piping, cursor advance or enqueue; the resulting watermark is the batch
maximum even when a later step of the tick throws, and the watermark never
decreases in any tick, in the store order used for timestamps. -/
theorem claim_c6_seen_watermark (store : List NewMessage)
    (groups : List (String × RegisteredGroup)) (test : String → Bool)
    (requireTrigger : Bool) (mainFolder selfName lastTimestamp : String)
    (cursorOf : String → String) (pipeOk : String → Bool)
    (laterFails : Bool) :
    ((getNewMessages store (groups.map (fun p => p.1)) lastTimestamp
        selfName).1 ≠ [] →
      (∃ rest,
        (messageLoopTick store groups test requireTrigger mainFolder selfName
          lastTimestamp cursorOf pipeOk laterFails).2 =
        TickEvent.advanceSeen
            (getNewMessages store (groups.map (fun p => p.1)) lastTimestamp
              selfName).2 ::
          TickEvent.save :: rest) ∧
      (messageLoopTick store groups test requireTrigger mainFolder selfName
        lastTimestamp cursorOf pipeOk laterFails).1 =
        (getNewMessages store (groups.map (fun p => p.1)) lastTimestamp
          selfName).2) ∧
    ltS (messageLoopTick store groups test requireTrigger mainFolder selfName
        lastTimestamp cursorOf pipeOk laterFails).1 lastTimestamp = false := by
  constructor
  · intro hne
    have hempty := isEmpty_false_of_ne_nil hne
    constructor
    · simp only [messageLoopTick, hempty, Bool.false_eq_true, if_false]
      exact ⟨_, rfl⟩
    · simp only [messageLoopTick, hempty, Bool.false_eq_true, if_false]
  · by_cases hempty : (getNewMessages store (groups.map (fun p => p.1))
        lastTimestamp selfName).1.isEmpty
    · simp only [messageLoopTick, hempty, if_true]
      exact ltChars_irrefl lastTimestamp.data
    · have hempty' : (getNewMessages store (groups.map (fun p => p.1))
          lastTimestamp selfName).1.isEmpty = false := by
        cases h : (getNewMessages store (groups.map (fun p => p.1))
            lastTimestamp selfName).1.isEmpty with
        | true => exact absurd h hempty
        | false => rfl
      simp only [getNewMessages] at hempty'
      simp only [messageLoopTick, getNewMessages, hempty', Bool.false_eq_true,
        if_false]
      exact ltS_foldl_maxS _ lastTimestamp

/-- Closed instance of the C6 theorem at a concrete store: the tick first
advances and persists the seen watermark to the batch maximum t5 even though
the later per-group steps fail. -/
theorem claim_c6_witness :
    ((getNewMessages [⟨"chat1", "alice", "hi", "t5"⟩] ["chat1"] "t4"
        "Andy").1 ≠ []) ∧
    (∃ rest,
      (messageLoopTick [⟨"chat1", "alice", "hi", "t5"⟩]
        [("chat1", ⟨"Friends", "friends", "@A", none, none⟩)]
        (fun _ => true) true "main" "Andy" "t4" (fun _ => "") (fun _ => false)
        true).2 =
      TickEvent.advanceSeen
          (getNewMessages [⟨"chat1", "alice", "hi", "t5"⟩] ["chat1"] "t4"
            "Andy").2 ::
        TickEvent.save :: rest) := by
  have h := claim_c6_seen_watermark [⟨"chat1", "alice", "hi", "t5"⟩]
    [("chat1", ⟨"Friends", "friends", "@A", none, none⟩)]
    (fun _ => true) true "main" "Andy" "t4" (fun _ => "") (fun _ => false) true
  exact ⟨by decide, ((h.1 (by decide)).1)⟩

/-- C7 counterexample: at a concrete workspace with a 60000 ms timeout
override, the timeout path of runOpenCodeAgent sends exactly one signal to
the child, the forced SIGKILL, with no preceding graceful signal; so the
claim that on timeout the process is killed with a graceful signal first and
then force is false of this runner. -/
theorem claim_c7_counterexample :
    (runOpenCodeAgent (fun _ => none)
      ⟨"Friends", "friends", "", none, some ⟨some 60000, []⟩⟩ none
      ProcTermination.timeoutFired "" "" none).2 = [Signal.sigkill] ∧
    Signal.sigterm ∉ (runOpenCodeAgent (fun _ => none)
      ⟨"Friends", "friends", "", none, some ⟨some 60000, []⟩⟩ none
      ProcTermination.timeoutFired "" "" none).2 ∧
    (runOpenCodeAgent (fun _ => none)
      ⟨"Friends", "friends", "", none, some ⟨some 60000, []⟩⟩ none
      ProcTermination.timeoutFired "" "" none).1.error =
      some "OpenCode timed out after 60000ms" := by
  refine ⟨rfl, ?_, ?_⟩
  · decide
  · rfl

/-- C7 amended: when the wall-clock timeout expires before the child
finishes, runOpenCodeAgent kills the process immediately and only with
SIGKILL (no graceful signal precedes), and resolves to a final output with
status error whose error field reports the timeout duration; the duration is
the opts override, else the per-workspace containerConfig timeout, else the
global default of 300000 ms (5 minutes). -/
theorem claim_c7_amended_timeout (parse : String → Option OCLine)
    (g : RegisteredGroup) (opts : Option OpenCodeOpts)
    (stdout stderr : String) (sid : Option String) :
    runOpenCodeAgent parse g opts ProcTermination.timeoutFired stdout stderr
        sid =
      (⟨OutStatus.error, none, none,
        some ("OpenCode timed out after " ++
          toString (resolveTimeoutMs g opts) ++ "ms")⟩,
       [Signal.sigkill]) ∧
    resolveTimeoutMs g none =
      (g.containerConfig.bind (fun c => c.timeout)).getD 300000 :=
  ⟨rfl, rfl⟩

/-- C10: runOpenCodeAgent never resolves to a success with an empty result:
a success always carries the non-empty extracted text; an exit with code 0 or
with code null (killed by the runner) whose stdout yields no extractable text
resolves to an error that reports empty output; and any other exit code
resolves to an error. -/
theorem claim_c10_no_empty_success (parse : String → Option OCLine)
    (g : RegisteredGroup) (opts : Option OpenCodeOpts)
    (term : ProcTermination) (stdout stderr : String) (sid : Option String) :
    ((runOpenCodeAgent parse g opts term stdout stderr sid).1.status =
        OutStatus.success →
      (runOpenCodeAgent parse g opts term stdout stderr sid).1.result =
        some (extractOpenCodeResponse parse stdout) ∧
      extractOpenCodeResponse parse stdout ≠ "") ∧
    (∀ c : Option Int, term = ProcTermination.closed c →
      (c = some 0 ∨ c = none) → extractOpenCodeResponse parse stdout = "" →
      (runOpenCodeAgent parse g opts term stdout stderr sid).1.status =
          OutStatus.error ∧
      (runOpenCodeAgent parse g opts term stdout stderr sid).1.error =
        some ("OpenCode returned empty output. Stderr: " ++
          takeLastS 500 (trimS stderr))) ∧
    (∀ n : Int, term = ProcTermination.closed (some n) → n ≠ 0 →
      (runOpenCodeAgent parse g opts term stdout stderr sid).1.status =
        OutStatus.error) := by
  refine ⟨?_, ?_, ?_⟩
  · intro hs
    cases term with
    | timeoutFired => simp [runOpenCodeAgent] at hs
    | spawnError msg => simp [runOpenCodeAgent] at hs
    | closed code =>
      by_cases hc : code ≠ some 0 ∧ code ≠ none
      · simp [runOpenCodeAgent, hc] at hs
      · by_cases he : extractOpenCodeResponse parse stdout = ""
        · simp [runOpenCodeAgent, hc, he] at hs
        · simp only [runOpenCodeAgent, hc, he, if_false, if_neg,
            not_false_eq_true]
          exact ⟨trivial, he⟩
  · intro c hterm hc he
    subst hterm
    have hc' : ¬ (c ≠ some 0 ∧ c ≠ none) := by
      rcases hc with h | h
      · intro hh; exact hh.1 h
      · intro hh; exact hh.2 h
    simp only [runOpenCodeAgent, hc', he, if_neg, not_false_eq_true, if_pos]
    exact ⟨trivial, trivial⟩
  · intro n hterm hn
    subst hterm
    have hc' : (some n ≠ some 0 ∧ (some n : Option Int) ≠ none) := by
      constructor
      · intro hh
        exact hn (Option.some_injective Int hh)
      · intro hh
        exact Option.noConfusion hh
    simp [runOpenCodeAgent, hc']

/-- Closed instance of the C10 theorem: a clean exit whose stdout parses to
the text chunk hi is a success carrying that text, and a clean exit with
unparseable stdout is the empty-output error. -/
theorem claim_c10_witness :
    ((runOpenCodeAgent
        (fun _ => some ⟨some "text", some "hi", none, none, none⟩)
        ⟨"Friends", "friends", "", none, none⟩ none
        (ProcTermination.closed (some 0)) "x" "" none).1.result =
      some (extractOpenCodeResponse
        (fun _ => some ⟨some "text", some "hi", none, none, none⟩) "x") ∧
      extractOpenCodeResponse
        (fun _ => some ⟨some "text", some "hi", none, none, none⟩) "x" ≠ "") ∧
    ((runOpenCodeAgent (fun _ => none)
        ⟨"Friends", "friends", "", none, none⟩ none
        (ProcTermination.closed none) "" "e" none).1.status =
      OutStatus.error) := by
  constructor
  · exact (claim_c10_no_empty_success
      (fun _ => some ⟨some "text", some "hi", none, none, none⟩)
      ⟨"Friends", "friends", "", none, none⟩ none
      (ProcTermination.closed (some 0)) "x" "" none).1 (by decide)
  · exact ((claim_c10_no_empty_success (fun _ => none)
      ⟨"Friends", "friends", "", none, none⟩ none
      (ProcTermination.closed none) "" "e" none).2.1 none rfl (Or.inr rfl)
      (by decide)).1

/-- C2: the vibe runner accepts every additional mount of the workspace
configuration without any validation.  At a concrete non-privileged
workspace requesting a read-write mount of a .ssh directory, the mount is
passed through read-write: its host path is under no allowed root of the
documented default policy, it matches the blocked pattern .ssh, and the
guest mount is not read-only although the workspace is non-privileged and
the policy demands read-only — the accepted mount violates every clause of
the mount-policy safety property, evaluated on the code. -/
theorem claim_c2_mount_policy_violated :
    Mount.mk "/Users/test/.ssh" "/mnt/ssh" false ∈
      buildVibeMounts
        ⟨"Friends", "friends", "", none,
          some ⟨none, [⟨"/Users/test/.ssh", "/mnt/ssh", some false⟩]⟩⟩
        "/groups/friends" "/ipc/friends" "/sessions/friends" false ∧
    ¬ mountPolicyClaim
        ⟨[("/Users/test/projects", true)],
         [".ssh", ".gnupg", "*.key", ".env"], true⟩ false
        (Mount.mk "/Users/test/.ssh" "/mnt/ssh" false) ∧
    "/Users/test/.ssh:/mnt/ssh:read-write" ∈
      vibeMountArgs
        (buildVibeMounts
          ⟨"Friends", "friends", "", none,
            some ⟨none, [⟨"/Users/test/.ssh", "/mnt/ssh", some false⟩]⟩⟩
          "/groups/friends" "/ipc/friends" "/sessions/friends" false) := by
  refine ⟨?_, ?_, ?_⟩
  · decide
  · decide
  · decide

/-- C9: every invocation of runTartAgent, whatever the outcome of its setup
and agent steps (success output, error output, or a throw at any step), ends
its command trace by stopping and then deleting the VM clone named from the
workspace folder and the spawn timestamp, provided the stop command itself
does not throw (a thrown stop is swallowed and skips only the delete). -/
theorem claim_c9_clone_cleanup (env : TartEnv) (g : RegisteredGroup)
    (base dir : String) (spawnTime : Nat) (h : env.stopOk = true) :
    ∃ pre, (runTartAgent env g base dir spawnTime).2 =
      pre ++ [TartCmd.stop ("nanoclaw-" ++ g.folder ++ "-" ++
                toString spawnTime),
              TartCmd.delete ("nanoclaw-" ++ g.folder ++ "-" ++
                toString spawnTime)] := by
  refine ⟨(tartBody env base
    ("nanoclaw-" ++ g.folder ++ "-" ++ toString spawnTime) dir).2, ?_⟩
  simp [runTartAgent, h]

/-- Closed instance of the C9 theorem: a run that fails at the SSH step still
ends by stopping and deleting its clone. -/
theorem claim_c9_witness :
    ∃ pre, (runTartAgent
      ⟨true, true, true, true, some "10.0.0.5", false, false, false, false,
        false, none, true, true⟩
      ⟨"Friends", "friends", "", none, none⟩ "tart-base" "/groups/friends"
      42).2 =
      pre ++ [TartCmd.stop ("nanoclaw-" ++ "friends" ++ "-" ++ toString 42),
              TartCmd.delete ("nanoclaw-" ++ "friends" ++ "-" ++
                toString 42)] :=
  claim_c9_clone_cleanup
    ⟨true, true, true, true, some "10.0.0.5", false, false, false, false,
      false, none, true, true⟩
    ⟨"Friends", "friends", "", none, none⟩ "tart-base" "/groups/friends" 42
    rfl

/-- The opening tag without its first character, to expose the cons cell. -/
def tagOpenTail : List Char := ['i', 'n', 't', 'e', 'r', 'n', 'a', 'l', '>']

/-- The closing tag without its first character, to expose the cons cell. -/
def tagCloseTail : List Char :=
  ['/', 'i', 'n', 't', 'e', 'r', 'n', 'a', 'l', '>']

theorem isPrefixOf_append_self :
    ∀ (l t : List Char), l.isPrefixOf (l ++ t) = true := by
  intro l t
  induction l with
  | nil => simp [List.isPrefixOf]
  | cons a tl ih => simp [List.isPrefixOf, ih]

theorem isPrefixOf_cons_of_ne (a c : Char) (p tl : List Char) (h : a ≠ c) :
    (a :: p).isPrefixOf (c :: tl) = false := by
  have hb : (a == c) = false := beq_eq_false_iff_ne.mpr h
  simp [List.isPrefixOf, hb]

theorem dropAfterClose_skip :
    ∀ (mid post : List Char), (∀ c ∈ mid, c ≠ '<') →
      dropAfterClose (mid ++ (tagClose ++ post)) = some post := by
  intro mid
  induction mid with
  | nil =>
    intro post _
    have hcons : tagClose ++ post = '<' :: (tagCloseTail ++ post) := rfl
    have hpref : tagClose.isPrefixOf ('<' :: (tagCloseTail ++ post)) = true := by
      rw [← hcons]
      exact isPrefixOf_append_self _ _
    have hdrop : ('<' :: (tagCloseTail ++ post)).drop tagClose.length = post := by
      rw [← hcons]
      exact List.drop_left _ _
    rw [List.nil_append, hcons]
    simp only [dropAfterClose, hpref, if_true, hdrop]
  | cons c mt ih =>
    intro post hm
    have hc : c ≠ '<' := hm c (by simp)
    have htag : tagClose = '<' :: tagCloseTail := rfl
    have hpref : tagClose.isPrefixOf (c :: (mt ++ (tagClose ++ post)))
        = false := by
      rw [htag]
      exact isPrefixOf_cons_of_ne _ _ _ _ (fun he => hc he.symm)
    rw [List.cons_append]
    simp only [dropAfterClose, hpref, Bool.false_eq_true, if_false]
    exact ih post (fun x hx => hm x (by simp [hx]))

theorem stripAuxF_append :
    ∀ (fuel : Nat) (pre mid post : List Char),
      (∀ c ∈ pre, c ≠ '<') → (∀ c ∈ mid, c ≠ '<') →
      (pre ++ tagOpen ++ mid ++ tagClose ++ post).length ≤ fuel →
      stripAuxF fuel (pre ++ tagOpen ++ mid ++ tagClose ++ post) =
        pre ++ stripL post := by
  intro fuel
  induction fuel with
  | zero =>
    intro pre mid post _ _ hlen
    exfalso
    simp [tagOpen, tagClose, List.length_append] at hlen
  | succ fuel ih =>
    intro pre mid post hp hm hlen
    cases pre with
    | nil =>
      rw [List.nil_append, List.nil_append, List.append_assoc,
        List.append_assoc]
      have hcons : tagOpen ++ (mid ++ (tagClose ++ post)) =
          '<' :: (tagOpenTail ++ (mid ++ (tagClose ++ post))) := rfl
      have hpref : tagOpen.isPrefixOf
          ('<' :: (tagOpenTail ++ (mid ++ (tagClose ++ post)))) = true := by
        rw [← hcons]
        exact isPrefixOf_append_self _ _
      have hdrop : ('<' :: (tagOpenTail ++ (mid ++ (tagClose ++ post)))).drop
          tagOpen.length = mid ++ (tagClose ++ post) := by
        rw [← hcons]
        exact List.drop_left _ _
      have hclose := dropAfterClose_skip mid post hm
      have hfpost : post.length ≤ fuel := by
        simp only [List.nil_append, List.length_append, List.length_cons,
          tagOpen, tagClose] at hlen
        simp only [List.length_cons, List.length_nil] at hlen
        omega
      rw [hcons]
      simp only [stripAuxF, hpref, if_true, hdrop, hclose]
      exact stripAuxF_fuel fuel post hfpost
    | cons c pre' =>
      have hc : c ≠ '<' := hp c (by simp)
      have htag : tagOpen = '<' :: tagOpenTail := rfl
      simp only [List.cons_append]
      have hpref : tagOpen.isPrefixOf
          (c :: (pre' ++ tagOpen ++ mid ++ tagClose ++ post)) = false := by
        rw [htag]
        exact isPrefixOf_cons_of_ne _ _ _ _ (fun he => hc he.symm)
      simp only [List.append_assoc] at hpref ⊢
      simp only [stripAuxF, hpref, Bool.false_eq_true, if_false]
      have hlen' : (pre' ++ (tagOpen ++ (mid ++ (tagClose ++ post)))).length
          ≤ fuel := by
        simp only [List.cons_append, List.length_cons, List.length_append]
          at hlen
        simp only [List.length_append]
        omega
      have := ih pre' mid post (fun x hx => hp x (by simp [hx])) hm
        (by simpa [List.append_assoc] using hlen')
      simpa [List.append_assoc] using congrArg (c :: ·) this

/-- C8: internal-reasoning stripping before surfacing.  First, the replace
removes every internal block: around any occurrence of an opening tag
followed by a closing tag (with no stray tag-opening character before or
inside the block), the stripped text is the prefix followed by the stripped
remainder, the block and the tags gone.  Second, per result frame the
callback surfaces exactly the stripped and trimmed text: when something
remains it sends it as the single sendMessage of the frame, and when nothing
remains after stripping and trimming it sends no message at all. -/
theorem claim_c8_internal_stripping :
    (∀ pre mid post : List Char,
      (∀ c ∈ pre, c ≠ '<') → (∀ c ∈ mid, c ≠ '<') →
      stripL (pre ++ tagOpen ++ mid ++ tagClose ++ post) =
        pre ++ stripL post) ∧
    (∀ (folder chatJid cursorNow : String) (r : ContainerOutput)
        (raw : String), r.result = some raw →
      (processFrame folder chatJid cursorNow r).filter isSendEvent =
        (if trimS (stripInternal raw) = "" then []
         else [Event.sendMessage chatJid (trimS (stripInternal raw))])) := by
  constructor
  · intro pre mid post hp hm
    exact stripAuxF_append _ pre mid post hp hm (le_refl _)
  · intro folder chatJid cursorNow r raw h
    simp only [processFrame, h]
    rw [List.filter_append]
    have hsess : (match r.newSessionId with
        | some sid => [Event.setSession folder sid]
        | none => ([] : List Event)).filter isSendEvent = [] := by
      cases r.newSessionId with
      | some sid => simp [isSendEvent]
      | none => rfl
    rw [hsess, List.nil_append]
    by_cases hraw : raw = ""
    · subst hraw
      have hres : trimS (stripInternal "") = "" := rfl
      simp [hres, isSendEvent]
    · by_cases hres : trimS (stripInternal raw) = ""
      · simp [hraw, hres, isSendEvent]
      · simp [hraw, hres, isSendEvent]

/-- Closed instance of the C8 theorem: a concrete internal block between
plain text is removed, and a frame whose result is an internal block followed
by visible text sends exactly the visible text. -/
theorem claim_c8_witness :
    stripL ("ab".data ++ tagOpen ++ "x".data ++ tagClose ++ "cd".data) =
      "ab".data ++ stripL "cd".data ∧
    (processFrame "friends" "chat1" "t7"
        ⟨OutStatus.success, some "<internal>x</internal> hi", none, none⟩
      ).filter isSendEvent =
      (if trimS (stripInternal "<internal>x</internal> hi") = "" then []
       else [Event.sendMessage "chat1"
        (trimS (stripInternal "<internal>x</internal> hi"))]) :=
  ⟨claim_c8_internal_stripping.1 "ab".data "x".data "cd".data (by decide)
    (by decide),
   claim_c8_internal_stripping.2 "friends" "chat1" "t7"
    ⟨OutStatus.success, some "<internal>x</internal> hi", none, none⟩
    "<internal>x</internal> hi" rfl⟩

end NanoClaw
